import Mathlib

/-!
Verification of `scripts/build_pgedge_images.py`, the pgEdge container-image
reconciler.  The script declares a matrix of image variants, derives the set of
registry tags each variant must carry, validates the matrix for tag collisions,
and reconciles the desired state against the registry: build+sign missing build
tags and (re)point alias tags, with dry-run, republish, no-cache and version /
architecture filters taken from the environment.

The embedding below mirrors the Python source.  Python `str`/`int` fields map
to `String`/`Nat` (all epochs in the matrix are nonnegative), Python `None`
defaults map to `Option`, and Python truthiness tests (`if self.epoch:` is
false for both `None` and `0`) are translated as the corresponding tests on the
`Option` values.  Python sets of strings are modelled as lists operated on by
membership (emptiness, intersection, union, subset are all membership-based, so
multiplicity and order are irrelevant to every decision the script makes).
External processes (`docker buildx`, `cosign`) are modelled by an environment
of oracles: `published_digests` per rendered tag, `index_digest` as an optional
digest (`none` models a raised `CalledProcessError`), and per-target success
bits for the build/sign/tag drivers.
-/

/-- `Tag` dataclass: `postgres_version`, optional `spock_version`, optional
`epoch`, optional `flavor` (source lines 35-40). -/
structure Tag where
  postgres_version : String
  spock_version : Option String := none
  epoch : Option Nat := none
  flavor : Option String := none
deriving DecidableEq, Repr

/-- The `-spock{v}` fragment of `Tag.__str__`: appended only when
`self.spock_version` is truthy (not `None` and not `""`). -/
def spockFragment : Option String → String
  | some s => if s = "" then "" else "-spock" ++ s
  | none => ""

/-- The `-{flavor}` fragment of `Tag.__str__`: appended only when
`self.flavor` is truthy (not `None` and not `""`). -/
def flavorFragment : Option String → String
  | some f => if f = "" then "" else "-" ++ f
  | none => ""

/-- The `-{epoch}` fragment of `Tag.__str__`: appended only when
`self.epoch` is truthy (not `None` and not `0`). -/
def epochFragment : Option Nat → String
  | some e => if e = 0 then "" else "-" ++ Nat.repr e
  | none => ""

/-- `Tag.__str__` (source lines 42-54): base version, then the spock suffix,
then the flavor, then the epoch, each appended under Python truthiness. -/
def Tag.str (t : Tag) : String :=
  t.postgres_version ++ spockFragment t.spock_version
    ++ flavorFragment t.flavor ++ epochFragment t.epoch

/-- `PgEdgeImage` dataclass (source lines 57-65). -/
structure PgEdgeImage where
  postgres_version : String
  spock_version : String
  epoch : Nat
  is_latest_for_pg_major : Bool := false
  is_latest_for_spock_major : Bool := false
  flavor : String := ""
  package_release_channel : String := ""
deriving DecidableEq, Repr

/-- Python `s.split(".")[0]`: the characters of `s` before its first `'.'`
(the whole of `s` when it has no `'.'`; `""` when `s` is empty, since
`"".split(".")` is `[""]`). -/
def majorComponent (s : String) : String :=
  ⟨s.data.takeWhile (fun c => c != '.')⟩

/-- `PgEdgeImage.postgres_major`: `postgres_version.split(".")[0]`. -/
def PgEdgeImage.postgres_major (v : PgEdgeImage) : String :=
  majorComponent v.postgres_version

/-- `PgEdgeImage.spock_major`: `spock_version.split(".")[0]`. -/
def PgEdgeImage.spock_major (v : PgEdgeImage) : String :=
  majorComponent v.spock_version

/-- `PgEdgeImage.package_list` (source lines 75-82). -/
def PgEdgeImage.package_list (v : PgEdgeImage) : String :=
  "pg" ++ v.postgres_version ++ "-spock" ++ v.spock_version
    ++ (if v.flavor = "" then "" else "-" ++ v.flavor) ++ ".txt"

/-- `PgEdgeImage.build_tag` (source lines 84-92): immutable tag with epoch. -/
def PgEdgeImage.build_tag (v : PgEdgeImage) : Tag :=
  { postgres_version := v.postgres_version
    spock_version := some v.spock_version
    epoch := some v.epoch
    flavor := some v.flavor }

/-- `PgEdgeImage.extra_tags` (source lines 94-125): always the epoch-less tag;
when `is_latest_for_spock_major`, also the spock-major alias; when additionally
`is_latest_for_pg_major`, also the postgres-major/spock-major alias. -/
def PgEdgeImage.extra_tags (v : PgEdgeImage) : List Tag :=
  [{ postgres_version := v.postgres_version
     spock_version := some v.spock_version
     epoch := none
     flavor := some v.flavor }]
  ++ (if v.is_latest_for_spock_major then
        [{ postgres_version := v.postgres_version
           spock_version := some v.spock_major
           epoch := none
           flavor := some v.flavor }]
        ++ (if v.is_latest_for_pg_major then
              [{ postgres_version := v.postgres_major
                 spock_version := some v.spock_major
                 epoch := none
                 flavor := some v.flavor }]
            else [])
      else [])

/-- `PgEdgeImage.all_tags` (source lines 127-129): `[build_tag, *extra_tags]`. -/
def PgEdgeImage.all_tags (v : PgEdgeImage) : List Tag :=
  v.build_tag :: v.extra_tags

/-- `make_all_flavor_images` (source lines 132-154): one variant per flavor in
`["minimal", "standard"]`. -/
def make_all_flavor_images (postgres_version spock_version : String) (epoch : Nat)
    (is_latest_for_pg_major is_latest_for_spock_major : Bool)
    (package_release_channel : String) : List PgEdgeImage :=
  ["minimal", "standard"].map fun flavor =>
    { postgres_version := postgres_version
      spock_version := spock_version
      epoch := epoch
      is_latest_for_pg_major := is_latest_for_pg_major
      is_latest_for_spock_major := is_latest_for_spock_major
      flavor := flavor
      package_release_channel := package_release_channel }

/-- `all_images` (source lines 159-183): the declared matrix. -/
def all_images : List PgEdgeImage :=
  make_all_flavor_images "16.10" "5.0.4" 1 true true ""
  ++ make_all_flavor_images "17.6" "5.0.4" 1 true true ""
  ++ make_all_flavor_images "18.0" "5.0.4" 1 true true ""

/-- The rendered tag strings of one variant's `all_tags`
(`map(str, image.all_tags)` before Python's `set(...)` dedup). -/
def renderTags (v : PgEdgeImage) : List String :=
  v.all_tags.map Tag.str

/-- Loop body of `validate_images` (source lines 186-195).  `acc` is the
accumulator set `all_tags` of tags seen so far; `set(map(str, image.all_tags))`
is the per-image deduped set; a non-empty intersection raises `ValueError`
carrying the overlapping tags, otherwise the union is accumulated. -/
def validateGo (acc : List String) : List PgEdgeImage → Except (List String) Unit
  | [] => .ok ()
  | image :: rest =>
    let image_tags := (renderTags image).dedup
    let overlap := acc.filter (fun t => decide (t ∈ image_tags))
    if overlap ≠ [] then .error overlap
    else validateGo (acc ++ image_tags.filter (fun t => decide (t ∉ acc))) rest

/-- `validate_images` (source lines 186-195), with the `ValueError` modelled as
an `Except.error` carrying the colliding tag strings that the raised message
names (`", ".join(overlap)`). -/
def validate_images (images : List PgEdgeImage) : Except (List String) Unit :=
  validateGo [] images

/-! ### The digest oracle (`published_digests`, source lines 212-227)

`docker buildx imagetools inspect --raw` output is JSON; the script reads
`raw.get("manifests", [])` and collects each entry's `"digest"` value, and a
`CalledProcessError` from the inspect call (nonexistent tag, transport failure)
is caught and mapped to the empty set.  We model the inspect call's outcome as
`Except Unit Json` (`error` = `CalledProcessError`, `ok` = the parsed output)
and the Python `set` of collected digest values as the list of collected
values.  A Python `AttributeError` (e.g. `.get` on a non-dict), which the
`except subprocess.CalledProcessError` clause does not catch, is modelled as
`Except.error` in the result. -/

/-- Minimal JSON value type for the manifest lists the oracle parses. -/
inductive Json where
  | null : Json
  | bool (b : Bool) : Json
  | num (n : Int) : Json
  | str (s : String) : Json
  | arr (elems : List Json) : Json
  | obj (fields : List (String × Json)) : Json

/-- Python `dict.get(k)`: first binding of `k`, else `None`. -/
def jsonLookup (k : String) : List (String × Json) → Option Json
  | [] => none
  | (k2, v) :: rest => if k2 = k then some v else jsonLookup k rest

/-- One step of the digest comprehension: `manifest.get("digest")`.  A
non-dict entry raises `AttributeError`, which the source does not catch. -/
def manifestDigest : Json → Except Unit (Option Json)
  | .obj fields => .ok (jsonLookup "digest" fields)
  | _ => .error ()

/-- The digest comprehension of source lines 221-225: for each manifest entry
in order, read `manifest.get("digest")` (propagating the uncaught
`AttributeError` of a non-dict entry) and keep the non-`None` values. -/
def collectDigests : List Json → Except Unit (List Json)
  | [] => .ok []
  | m :: rest =>
    match manifestDigest m with
    | .error e => .error e
    | .ok none => collectDigests rest
    | .ok (some d) => (collectDigests rest).map (fun ds => d :: ds)

/-- `published_digests` (source lines 212-227) as a function of the inspect
call's outcome: a `CalledProcessError` yields the empty set; otherwise the
digests of `raw.get("manifests", [])` entries are collected, skipping entries
whose `digest` is absent (`is not None` filter). -/
def published_digests (inspect : Except Unit Json) : Except Unit (List Json) :=
  match inspect with
  | .error _ => .ok []
  | .ok (.obj fields) =>
    match (jsonLookup "manifests" fields).getD (.arr []) with
    | .arr manifests => collectDigests manifests
    | _ => .error ()
  | .ok _ => .error ()

/-! ### External commands run by the side-effect drivers -/

/-- `bake_cmd` (source lines 198-199). -/
def bake_cmd (args : List String) : List String :=
  ["docker", "buildx", "bake", "--file", "pgedge.docker-bake.hcl"] ++ args

/-- `imagetools_cmd` (source lines 202-203). -/
def imagetools_cmd (args : List String) : List String :=
  ["docker", "buildx", "imagetools"] ++ args

/-- The `bake_args` list assembled inside `build` (source lines 248-252):
`--push`, plus `--no-cache` when the no-cache flag is set, plus the platform
override when the architecture filter is set.  Note: the source computes this
list and then never uses it. -/
def build_bake_args (no_cache : Bool) (only_arch : String) : List String :=
  ["--push"]
  ++ (if no_cache then ["--no-cache"] else [])
  ++ (if only_arch ≠ "" then ["--set", "default.platforms=linux/" ++ only_arch] else [])

/-- The external commands the `build` driver actually executes (source lines
230-264): none in dry-run mode; otherwise the single `bake_cmd("--push")`
invocation of line 255 — the assembled `bake_args` of lines 248-252 are
discarded, so neither `--no-cache` nor the platform override reach the tool. -/
def build_cmds (dry_run no_cache : Bool) (only_arch : String) : List (List String) :=
  if dry_run then [] else [bake_cmd ["--push"]]

/-- The external commands the `sign` driver executes (source lines 267-281). -/
def sign_cmds (dry_run : Bool) (repo digest : String) : List (List String) :=
  if dry_run then [] else [["cosign", "sign", "--yes", repo ++ "@" ++ digest]]

/-- The external commands the `add_tag` driver executes (source lines 283-294). -/
def add_tag_cmds (dry_run : Bool) (repo existing_tag new_tag : String) : List (List String) :=
  if dry_run then []
  else [imagetools_cmd ["create", "--tag", repo ++ ":" ++ new_tag, repo ++ ":" ++ existing_tag]]

/-! ### The reconciler (`main`, source lines 297-376) -/

/-- `Config` dataclass (source lines 11-19); `from_env` parsing is external. -/
structure Config where
  repo : String
  republish : Bool
  dry_run : Bool
  no_cache : Bool
  only_postgres_version : String
  only_spock_version : String
  only_arch : String

/-- Oracles for the external world, keyed by rendered tag / digest:
`digests` is `published_digests(repo, tag)` (the set as a list);
`indexDigest` is `index_digest(repo, tag)` with `none` modelling the raised
`CalledProcessError` for a missing tag; the `*Ok` bits tell whether the
corresponding external tool invocation exits zero. -/
structure Env where
  digests : String → List String
  indexDigest : String → Option String
  buildOk : String → Bool
  signOk : String → Bool
  addTagOk : String → Bool

/-- Driver invocations recorded by the reconciler, in order.  `indexDigest` is
the unguarded `index_digest` inspect call of source line 352. -/
inductive Call where
  | build (tag : String) : Call
  | indexDigest (tag : String) : Call
  | sign (digest : String) : Call
  | addTag (existing new : String) : Call
deriving DecidableEq, Repr

/-- Outcome of one external driver invocation: in dry-run mode it returns
right after logging, hence always succeeds; otherwise the tool's exit decides. -/
def runDriver (dry_run ok : Bool) : Bool :=
  if dry_run then true else ok

/-- The `for tag in image.extra_tags` loop (source lines 361-375): create the
alias when `tag_published` is empty, or not a subset of `published`, or the
republish flag is set; a failing `imagetools create` aborts the run.  Returns
the driver calls made (in order) and whether the loop completed. -/
def reconcileExtraTags (cfg : Config) (env : Env) (bt : String)
    (published : List String) : List String → List Call × Bool
  | [] => ([], true)
  | t :: rest =>
    if env.digests t = [] ∨ ¬ (∀ x ∈ env.digests t, x ∈ published) ∨ cfg.republish = true then
      if runDriver cfg.dry_run (env.addTagOk t) then
        (Call.addTag bt t :: (reconcileExtraTags cfg env bt published rest).1,
         (reconcileExtraTags cfg env bt published rest).2)
      else ([Call.addTag bt t], false)
    else reconcileExtraTags cfg env bt published rest

/-- Decision A for the build tag `bt` (source lines 342-359): when the observed
`published` set is empty or the republish flag is set, invoke the build driver,
then the unguarded `index_digest` fetch of line 352 (which aborts the run when
it raises, `Env.indexDigest = none`), then the sign driver. -/
def decisionA (cfg : Config) (env : Env) (bt : String) : List Call × Bool :=
  if env.digests bt = [] ∨ cfg.republish = true then
    if runDriver cfg.dry_run (env.buildOk bt) then
      match env.indexDigest bt with
      | some id =>
        ([Call.build bt, Call.indexDigest bt, Call.sign id],
         runDriver cfg.dry_run (env.signOk id))
      | none => ([Call.build bt, Call.indexDigest bt], false)
    else ([Call.build bt], false)
  else ([], true)

/-- The per-variant body of `main`'s loop (source lines 342-375): Decision A
(build, `index_digest` fetch, sign) followed by Decision B over the extra tags,
against the `published` set observed for the build tag before Decision A.  Any
uncaught failure aborts the run; the returned calls are those made before the
abort. -/
def reconcileImage (cfg : Config) (env : Env) (image : PgEdgeImage) : List Call × Bool :=
  let bt := Tag.str image.build_tag
  let a := decisionA cfg env bt
  if a.2 then
    let b := reconcileExtraTags cfg env bt (env.digests bt) ((image.extra_tags).map Tag.str)
    (a.1 ++ b.1, b.2)
  else a

/-- The version-filter test of source lines 332-340 (negated skip condition). -/
def passes_filter (cfg : Config) (image : PgEdgeImage) : Bool :=
  !((cfg.only_postgres_version != "" && image.postgres_version != cfg.only_postgres_version)
    || (cfg.only_spock_version != "" && image.spock_version != cfg.only_spock_version))

/-- `main`'s loop over the image list (source lines 331-375). -/
def mainRun (cfg : Config) (env : Env) : List PgEdgeImage → List Call × Bool
  | [] => ([], true)
  | image :: rest =>
    if passes_filter cfg image then
      let r := reconcileImage cfg env image
      if r.2 then
        let r2 := mainRun cfg env rest
        (r.1 ++ r2.1, r2.2)
      else r
    else mainRun cfg env rest

/-- `main` (source lines 297-376), generalized over the image list:
`validate_images` runs before any variant is reconciled, and a validation
error aborts the run with no driver invoked. -/
def pymain (cfg : Config) (env : Env) (images : List PgEdgeImage) : List Call × Bool :=
  match validate_images images with
  | .error _ => ([], false)
  | .ok _ => mainRun cfg env images

/-! ### Concrete inputs used in counterexamples and witnesses -/

/-- The first matrix entry: pg 16.10 / spock 5.0.4 / minimal, both latest
flags set (source lines 161-167). -/
def image16min : PgEdgeImage :=
  { postgres_version := "16.10", spock_version := "5.0.4", epoch := 1
    is_latest_for_pg_major := true, is_latest_for_spock_major := true
    flavor := "minimal", package_release_channel := "" }

/-- A variant with epoch 0: its `build_tag` renders identically to its first
extra tag, since Python truthiness drops a zero epoch. -/
def imageEpochZero : PgEdgeImage :=
  { postgres_version := "16", spock_version := "5", epoch := 0 }

/-- Default configuration values (source lines 24-32), dry-run off. -/
def cfgDefault : Config :=
  { repo := "127.0.0.1:5000/pgedge-postgres", republish := false, dry_run := false
    no_cache := false, only_postgres_version := "", only_spock_version := ""
    only_arch := "" }

/-- Default configuration with the dry-run flag set. -/
def cfgDry : Config :=
  { cfgDefault with dry_run := true }

/-- An environment for a registry with nothing published: every digest set is
empty and every `index_digest` call raises. -/
def envUnpublished : Env :=
  { digests := fun _ => [], indexDigest := fun _ => none
    buildOk := fun _ => true, signOk := fun _ => true, addTagOk := fun _ => true }

/-- An environment for an empty registry whose tooling succeeds: builds, signs
and tag creations work, and `index_digest` returns a fixed digest. -/
def envFresh : Env :=
  { digests := fun _ => [], indexDigest := fun _ => some "sha256:aaaa"
    buildOk := fun _ => true, signOk := fun _ => true, addTagOk := fun _ => true }

/-- Reference decimal rendering of a natural number (most significant digit
first), used to reason about `Nat.repr` — the renderer behind the f-string
`f"-{self.epoch}"` in `Tag.__str__`. -/
def decDigits (n : Nat) : List Char :=
  if h : n < 10 then [Nat.digitChar n]
  else decDigits (n / 10) ++ [Nat.digitChar (n % 10)]
decreasing_by exact Nat.div_lt_self (by omega) (by omega)

/-! ## Theorems -/

/-! ### Decimal rendering: `Nat.repr` is injective -/

theorem decDigits_lt {n : Nat} (h : n < 10) : decDigits n = [Nat.digitChar n] := by
  conv_lhs => rw [decDigits]
  simp [h]

theorem decDigits_ge {n : Nat} (h : ¬ n < 10) :
    decDigits n = decDigits (n / 10) ++ [Nat.digitChar (n % 10)] := by
  conv_lhs => rw [decDigits]
  simp [h]

theorem toDigitsCore_eq_decDigits :
    ∀ (fuel n : Nat) (acc : List Char), n < fuel →
      Nat.toDigitsCore 10 fuel n acc = decDigits n ++ acc := by
  intro fuel
  induction fuel with
  | zero => intro n acc h; omega
  | succ fuel ih =>
    intro n acc h
    rw [Nat.toDigitsCore]
    by_cases hz : n / 10 = 0
    · have hn : n < 10 := by omega
      simp only [hz, if_pos rfl]
      rw [decDigits_lt hn, Nat.mod_eq_of_lt hn]
      rfl
    · have hn : ¬ n < 10 := by omega
      simp only [if_neg hz]
      rw [ih (n / 10) _ (by omega), decDigits_ge hn]
      simp

theorem natRepr_eq_decDigits (n : Nat) : Nat.repr n = ⟨decDigits n⟩ := by
  show (Nat.toDigits 10 n).asString = _
  rw [Nat.toDigits, toDigitsCore_eq_decDigits (n + 1) n [] (Nat.lt_succ_self n)]
  simp [List.asString]

theorem digitChar_inj10 :
    ∀ a b : Fin 10, Nat.digitChar a.val = Nat.digitChar b.val → a = b := by decide

theorem decDigits_ne_nil (n : Nat) : decDigits n ≠ [] := by
  by_cases h : n < 10
  · rw [decDigits_lt h]; simp
  · rw [decDigits_ge h]; simp

theorem decDigits_inj : ∀ m n : Nat, decDigits m = decDigits n → m = n := by
  intro m
  induction m using Nat.strong_induction_on with
  | _ m ih =>
    intro n h
    by_cases hm : m < 10 <;> by_cases hn : n < 10
    · rw [decDigits_lt hm, decDigits_lt hn] at h
      have := digitChar_inj10 ⟨m, hm⟩ ⟨n, hn⟩ (by simpa using h)
      simpa using congrArg Fin.val this
    · rw [decDigits_lt hm, decDigits_ge hn] at h
      have hl := congrArg List.length h
      simp at hl
      exact ((decDigits_ne_nil (n / 10)) hl).elim
    · rw [decDigits_ge hm, decDigits_lt hn] at h
      have hl := congrArg List.length h
      simp at hl
      exact ((decDigits_ne_nil (m / 10)) hl).elim
    · rw [decDigits_ge hm, decDigits_ge hn] at h
      obtain ⟨h1, h2⟩ := List.append_inj' h (by simp)
      have hdiv : m / 10 = n / 10 := ih (m / 10) (by omega) (n / 10) h1
      have hmod : m % 10 = n % 10 := by
        have := digitChar_inj10 ⟨m % 10, by omega⟩ ⟨n % 10, by omega⟩ (by simpa using h2)
        simpa using congrArg Fin.val this
      omega

theorem natRepr_inj {m n : Nat} (h : Nat.repr m = Nat.repr n) : m = n := by
  rw [natRepr_eq_decDigits, natRepr_eq_decDigits] at h
  exact decDigits_inj m n (congrArg String.data h)

/-! ### String cancellation helpers -/

theorem strCancelLeft {a b c : String} (h : a ++ b = a ++ c) : b = c := by
  have h2 : a.data ++ b.data = a.data ++ c.data := by
    simpa [String.data_append] using congrArg String.data h
  exact String.ext (List.append_cancel_left h2)

theorem strCancelRight {a b c : String} (h : a ++ c = b ++ c) : a = b := by
  have h2 : a.data ++ c.data = b.data ++ c.data := by
    simpa [String.data_append] using congrArg String.data h
  exact String.ext (List.append_cancel_right h2)

/-! ### Single-field sensitivity of `Tag.__str__` -/

theorem tagStr_decompose (t : Tag) :
    Tag.str t = t.postgres_version ++ spockFragment t.spock_version
      ++ flavorFragment t.flavor ++ epochFragment t.epoch := rfl

theorem spockFragment_inj {s1 s2 : String}
    (h : spockFragment (some s1) = spockFragment (some s2)) : s1 = s2 := by
  by_cases e1 : s1 = ""
  · by_cases e2 : s2 = ""
    · exact e1.trans e2.symm
    · exfalso
      simp [spockFragment, e1, e2] at h
      have hl := congrArg String.length h
      rw [String.length_append] at hl
      have h6 : ("-spock" : String).length = 6 := rfl
      have h0 : ("" : String).length = 0 := rfl
      omega
  · by_cases e2 : s2 = ""
    · exfalso
      simp [spockFragment, e1, e2] at h
      have hl := congrArg String.length h
      rw [String.length_append] at hl
      have h6 : ("-spock" : String).length = 6 := rfl
      have h0 : ("" : String).length = 0 := rfl
      omega
    · simp [spockFragment, e1, e2] at h
      exact strCancelLeft h

theorem flavorFragment_inj {f1 f2 : String}
    (h : flavorFragment (some f1) = flavorFragment (some f2)) : f1 = f2 := by
  by_cases e1 : f1 = ""
  · by_cases e2 : f2 = ""
    · exact e1.trans e2.symm
    · exfalso
      simp [flavorFragment, e1, e2] at h
      have hl := congrArg String.length h
      rw [String.length_append] at hl
      have h1 : ("-" : String).length = 1 := rfl
      have h0 : ("" : String).length = 0 := rfl
      omega
  · by_cases e2 : f2 = ""
    · exfalso
      simp [flavorFragment, e1, e2] at h
      have hl := congrArg String.length h
      rw [String.length_append] at hl
      have h1 : ("-" : String).length = 1 := rfl
      have h0 : ("" : String).length = 0 := rfl
      omega
    · simp [flavorFragment, e1, e2] at h
      exact strCancelLeft h

theorem epochFragment_inj {e1 e2 : Nat}
    (h : epochFragment (some e1) = epochFragment (some e2)) : e1 = e2 := by
  by_cases z1 : e1 = 0
  · by_cases z2 : e2 = 0
    · exact z1.trans z2.symm
    · exfalso
      simp [epochFragment, z1, z2] at h
      have hl := congrArg String.length h
      rw [String.length_append] at hl
      have h1 : ("-" : String).length = 1 := rfl
      have h0 : ("" : String).length = 0 := rfl
      omega
  · by_cases z2 : e2 = 0
    · exfalso
      simp [epochFragment, z1, z2] at h
      have hl := congrArg String.length h
      rw [String.length_append] at hl
      have h1 : ("-" : String).length = 1 := rfl
      have h0 : ("" : String).length = 0 := rfl
      omega
    · simp [epochFragment, z1, z2] at h
      exact natRepr_inj (strCancelLeft h)

/-- C7 counterexample: a `Tag` constructed with `epoch` present and equal to
`0` renders WITHOUT the epoch suffix — Python's `if self.epoch:` is falsy at
`0`, so the rendered string is `"16"`, not `"16-0"`. -/
theorem tag_zero_epoch_dropped :
    Tag.str { postgres_version := "16", epoch := some 0 } = "16" ∧
    Tag.str { postgres_version := "16", epoch := some 0 } ≠ "16-0" :=
  ⟨rfl, by decide⟩

/-- C7 (amended): `Tag.__str__` branches on Python truthiness, not on field
presence: an epoch that is present but `0` is dropped (rendering equals the
epoch-less rendering), while a nonzero epoch is appended last; for non-falsy
fields the rendered form is primary version, then the `-spock` extension
suffix, then the flavor, then the epoch. -/
theorem tag_render_truthiness :
    (∀ pv (sv : Option String) (fl : Option String),
       Tag.str ⟨pv, sv, some 0, fl⟩ = Tag.str ⟨pv, sv, none, fl⟩) ∧
    (∀ pv (sv : Option String) (fl : Option String) (e : Nat), e ≠ 0 →
       Tag.str ⟨pv, sv, some e, fl⟩ = Tag.str ⟨pv, sv, none, fl⟩ ++ "-" ++ Nat.repr e) ∧
    (∀ pv s f (e : Nat), s ≠ "" → f ≠ "" → e ≠ 0 →
       Tag.str ⟨pv, some s, some e, some f⟩ =
         pv ++ "-spock" ++ s ++ "-" ++ f ++ "-" ++ Nat.repr e) := by
  refine ⟨?_, ?_, ?_⟩
  · intro pv sv fl
    simp [Tag.str, epochFragment]
  · intro pv sv fl e he
    simp [Tag.str, epochFragment, he, String.append_assoc]
  · intro pv s f e hs hf he
    simp [Tag.str, spockFragment, flavorFragment, epochFragment, hs, hf, he,
      String.append_assoc]

/-- C7 witness: at a concrete nonzero epoch the epoch suffix is appended. -/
theorem tag_render_truthiness_witness :
    Tag.str ⟨"16.10", some "5.0.4", some 1, some "minimal"⟩ =
      Tag.str ⟨"16.10", some "5.0.4", none, some "minimal"⟩ ++ "-" ++ Nat.repr 1 :=
  tag_render_truthiness.2.1 "16.10" (some "5.0.4") (some "minimal") 1 (by decide)

/-- C8 counterexample: two distinct `Tag`s (epoch `0` versus epoch absent)
render to the same string, so rendered-string equality does not imply `Tag`
equality. -/
theorem tag_render_not_injective :
    Tag.str { postgres_version := "16", epoch := some 0 } =
      Tag.str { postgres_version := "16" } ∧
    ({ postgres_version := "16", epoch := some 0 } : Tag) ≠
      { postgres_version := "16" } :=
  ⟨rfl, by decide⟩

/-- C8 (amended): rendering is a function of the fields (equal `Tag`s render
equal strings), and changing any single *present* field while keeping every
other field fixed changes the rendered string; however the converse of the
claimed iff fails (see the counterexample): rendered-string equality does not
imply `Tag` equality. -/
theorem tag_render_field_sensitivity :
    (∀ t1 t2 : Tag, t1 = t2 → Tag.str t1 = Tag.str t2) ∧
    (∀ pv1 pv2 (sv : Option String) (e : Option Nat) (fl : Option String),
       Tag.str ⟨pv1, sv, e, fl⟩ = Tag.str ⟨pv2, sv, e, fl⟩ → pv1 = pv2) ∧
    (∀ pv s1 s2 (e : Option Nat) (fl : Option String),
       Tag.str ⟨pv, some s1, e, fl⟩ = Tag.str ⟨pv, some s2, e, fl⟩ → s1 = s2) ∧
    (∀ pv (sv : Option String) (e : Option Nat) f1 f2,
       Tag.str ⟨pv, sv, e, some f1⟩ = Tag.str ⟨pv, sv, e, some f2⟩ → f1 = f2) ∧
    (∀ pv (sv : Option String) e1 e2 (fl : Option String),
       Tag.str ⟨pv, sv, some e1, fl⟩ = Tag.str ⟨pv, sv, some e2, fl⟩ → e1 = e2) := by
  refine ⟨fun t1 t2 h => by rw [h], ?_, ?_, ?_, ?_⟩
  · intro pv1 pv2 sv e fl h
    simp only [tagStr_decompose] at h
    exact strCancelRight (strCancelRight (strCancelRight h))
  · intro pv s1 s2 e fl h
    simp only [tagStr_decompose] at h
    exact spockFragment_inj (strCancelLeft (strCancelRight (strCancelRight h)))
  · intro pv sv e f1 f2 h
    simp only [tagStr_decompose] at h
    exact flavorFragment_inj (strCancelLeft (strCancelRight h))
  · intro pv sv e1 e2 fl h
    simp only [tagStr_decompose] at h
    exact epochFragment_inj (strCancelLeft h)

/-- C8 witness: the epoch component applied at a concrete rendered equality. -/
theorem tag_render_field_sensitivity_witness : (2 : Nat) = 2 :=
  tag_render_field_sensitivity.2.2.2.2 "17.6" (some "5.0.4") 2 2 (some "standard") rfl

/-- C3 counterexample: `image16min` has both latest flags set, yet it has
THREE extra tags (the epoch-less full tag, the spock-major alias, and the
postgres-major alias), not two. -/
theorem extra_tags_three_not_two :
    image16min.is_latest_for_pg_major = true ∧
    image16min.is_latest_for_spock_major = true ∧
    image16min.extra_tags.length = 3 :=
  ⟨rfl, rfl, rfl⟩

/-- C3 (amended): a variant with both latest flags set has exactly THREE extra
tags, ordered strictly from more- to less-specific — the epoch-less full tag,
then the alias dropping the spock minor/patch, then the coarsest alias which
omits both the spock minor/patch and the epoch and uses the primary (postgres)
major version; and no variant ever has more than 3 extra tags. -/
theorem extra_tags_amended_structure :
    (∀ v : PgEdgeImage, v.is_latest_for_pg_major = true →
      v.is_latest_for_spock_major = true →
      v.extra_tags =
        [{ postgres_version := v.postgres_version, spock_version := some v.spock_version,
           epoch := none, flavor := some v.flavor },
         { postgres_version := v.postgres_version, spock_version := some v.spock_major,
           epoch := none, flavor := some v.flavor },
         { postgres_version := v.postgres_major, spock_version := some v.spock_major,
           epoch := none, flavor := some v.flavor }]) ∧
    (∀ v : PgEdgeImage, v.extra_tags.length ≤ 3) := by
  constructor
  · intro v h1 h2
    simp [PgEdgeImage.extra_tags, h1, h2]
  · intro v
    cases hs : v.is_latest_for_spock_major <;> cases hp : v.is_latest_for_pg_major <;>
      simp [PgEdgeImage.extra_tags, hs, hp]

/-- C3 witness: the amended structure evaluated at the first matrix entry. -/
theorem extra_tags_amended_structure_witness :
    image16min.extra_tags =
      [{ postgres_version := "16.10", spock_version := some "5.0.4",
         epoch := none, flavor := some "minimal" },
       { postgres_version := "16.10", spock_version := some "5",
         epoch := none, flavor := some "minimal" },
       { postgres_version := "16", spock_version := some "5",
         epoch := none, flavor := some "minimal" }] := by
  rw [extra_tags_amended_structure.1 image16min rfl rfl]
  decide

/-- C10: regardless of the latest flags, `extra_tags` is never empty — its
first element is always the epoch-less tag with the full primary version, full
spock version and the flavor — so `all_tags` always has at least two elements
and starts with `build_tag`. -/
theorem extra_tags_first_alias (v : PgEdgeImage) :
    v.extra_tags ≠ [] ∧
    v.extra_tags.head? =
      some { postgres_version := v.postgres_version, spock_version := some v.spock_version,
             epoch := none, flavor := some v.flavor } ∧
    v.all_tags.head? = some v.build_tag ∧
    2 ≤ v.all_tags.length := by
  refine ⟨?_, rfl, rfl, ?_⟩
  · simp [PgEdgeImage.extra_tags]
  · cases hs : v.is_latest_for_spock_major <;> cases hp : v.is_latest_for_pg_major <;>
      simp [PgEdgeImage.all_tags, PgEdgeImage.extra_tags, hs, hp]

/-! ### Matrix validation -/

theorem accUpdate_mem (acc : List String) (img : PgEdgeImage) (t : String) :
    t ∈ acc ++ ((renderTags img).dedup.filter (fun t => decide (t ∉ acc))) ↔
      (t ∈ acc ∨ t ∈ renderTags img) := by
  simp only [List.mem_append, List.mem_filter, List.mem_dedup, decide_eq_true_eq]
  constructor
  · rintro (h | ⟨h, _⟩)
    · exact Or.inl h
    · exact Or.inr h
  · rintro (h | h)
    · exact Or.inl h
    · by_cases hc : t ∈ acc
      · exact Or.inl hc
      · exact Or.inr ⟨h, hc⟩

theorem validateGo_ok_iff (l : List PgEdgeImage) : ∀ acc : List String,
    validateGo acc l = .ok () ↔
      ((∀ img ∈ l, ∀ t ∈ renderTags img, t ∉ acc) ∧
       l.Pairwise (fun a b => ∀ t ∈ renderTags a, t ∉ renderTags b)) := by
  induction l with
  | nil => intro acc; simp [validateGo]
  | cons img rest ih =>
    intro acc
    simp only [validateGo]
    by_cases hov : acc.filter (fun t => decide (t ∈ (renderTags img).dedup)) = []
    · rw [if_neg (fun hne => hne hov)]
      have hA : ∀ t ∈ renderTags img, t ∉ acc := by
        intro t ht hta
        have := (List.filter_eq_nil_iff.mp hov) t hta
        simp only [List.mem_dedup, decide_eq_true_eq] at this
        exact this ht
      rw [ih _]
      simp only [List.pairwise_cons, List.mem_cons]
      constructor
      · rintro ⟨hrest, hpw⟩
        refine ⟨?_, ?_, hpw⟩
        · rintro i (rfl | hi) t ht
          · exact hA t ht
          · intro hc
            exact (accUpdate_mem acc img t).mpr (Or.inl hc) |> hrest i hi t ht
        · intro b hb t ht htb
          exact hrest b hb t htb ((accUpdate_mem acc img t).mpr (Or.inr ht))
      · rintro ⟨hall, hdisj, hpw⟩
        refine ⟨?_, hpw⟩
        intro i hi t ht hmem
        rcases (accUpdate_mem acc img t).mp hmem with hc | hc
        · exact hall i (Or.inr hi) t ht hc
        · exact hdisj i hi t hc ht
    · rw [if_pos hov]
      constructor
      · intro h
        exact absurd h (by simp)
      · rintro ⟨hall, _⟩
        exfalso
        rcases List.exists_mem_of_ne_nil _ hov with ⟨t, htm⟩
        simp only [List.mem_filter, List.mem_dedup, decide_eq_true_eq] at htm
        exact hall img (List.mem_cons_self img rest) t htm.2 htm.1

theorem validateGo_error (l : List PgEdgeImage) : ∀ (acc : List String) (e : List String),
    validateGo acc l = .error e →
      e ≠ [] ∧ ∀ t ∈ e,
        (t ∈ acc ∧ 1 ≤ l.countP (fun i => decide (t ∈ renderTags i))) ∨
        2 ≤ l.countP (fun i => decide (t ∈ renderTags i)) := by
  induction l with
  | nil => intro acc e h; simp [validateGo] at h
  | cons img rest ih =>
    intro acc e h
    simp only [validateGo] at h
    by_cases hov : acc.filter (fun t => decide (t ∈ (renderTags img).dedup)) = []
    · rw [if_neg (fun hne => hne hov)] at h
      obtain ⟨hne, hrest⟩ := ih _ e h
      refine ⟨hne, ?_⟩
      intro t ht
      rcases hrest t ht with ⟨hacc, hcnt⟩ | hcnt
      · rcases List.mem_append.mp hacc with h1 | h2
        · left
          refine ⟨h1, ?_⟩
          rw [List.countP_cons]
          omega
        · right
          have himg : t ∈ renderTags img := by
            simp only [List.mem_filter, List.mem_dedup, decide_eq_true_eq] at h2
            exact h2.1
          have hd : (decide (t ∈ renderTags img)) = true := by simpa using himg
          rw [List.countP_cons]
          simp only [hd, if_true]
          omega
      · right
        rw [List.countP_cons]
        omega
    · rw [if_pos hov] at h
      have he : e = acc.filter (fun t => decide (t ∈ (renderTags img).dedup)) :=
        (Except.error.injEq _ _ |>.mp h).symm
      subst he
      refine ⟨hov, ?_⟩
      intro t ht
      simp only [List.mem_filter, List.mem_dedup, decide_eq_true_eq] at ht
      left
      refine ⟨ht.1, ?_⟩
      rw [List.countP_cons]
      simp [ht.2]

/-- C4 counterexample: `imageEpochZero`'s `build_tag` (epoch `0`, dropped by
truthiness) renders identically to its first extra tag, so its `all_tags`
render two equal strings; yet `validate_images` succeeds on `[imageEpochZero]`
because the per-variant `set(map(str, ...))` dedups before any comparison —
success does NOT imply that all rendered tags, including those within a single
variant's `all_tags`, are pairwise distinct. -/
theorem validate_misses_intra_variant_dup :
    validate_images [imageEpochZero] = .ok () ∧
    ¬ (renderTags imageEpochZero).Nodup :=
  ⟨rfl, by decide⟩

/-- C4 (amended): `validate_images` succeeds iff the rendered tag sets of the
variants are pairwise disjoint ACROSS variants (duplicates inside one
variant's own `all_tags` are not detected); whenever two variants share a
rendered tag it fails with an error naming only genuinely colliding tags
(each named tag occurs in the rendered tags of at least two list positions);
and on a validation error `main` performs no driver call — validation runs
before any variant is reconciled. -/
theorem validate_images_characterization (images : List PgEdgeImage) :
    (validate_images images = .ok () ↔
      images.Pairwise (fun a b => ∀ t ∈ renderTags a, t ∉ renderTags b)) ∧
    (∀ e, validate_images images = .error e → e ≠ [] ∧
      ∀ t ∈ e, 2 ≤ images.countP (fun i => decide (t ∈ renderTags i))) ∧
    (∀ e cfg env, validate_images images = .error e →
      pymain cfg env images = ([], false)) := by
  refine ⟨?_, ?_, ?_⟩
  · rw [validate_images, validateGo_ok_iff]
    simp
  · intro e h
    obtain ⟨hne, hall⟩ := validateGo_error images [] e h
    refine ⟨hne, ?_⟩
    intro t ht
    rcases hall t ht with ⟨habs, _⟩ | h2
    · exact absurd habs (List.not_mem_nil t)
    · exact h2
  · intro e cfg env h
    simp [pymain, h]

/-- C4 witness: a list repeating the same variant collides; the error names
the shared rendered tag, which indeed occurs at two positions. -/
theorem validate_images_characterization_witness :
    ["16-spock5"] ≠ [] ∧
    ∀ t ∈ ["16-spock5"],
      2 ≤ [imageEpochZero, imageEpochZero].countP (fun i => decide (t ∈ renderTags i)) :=
  (validate_images_characterization [imageEpochZero, imageEpochZero]).2.1
    ["16-spock5"] rfl

/-! ### Digest oracle absence policy -/

theorem collectDigests_none (manifests : List Json)
    (h : ∀ m ∈ manifests, ∃ fields, m = Json.obj fields ∧ jsonLookup "digest" fields = none) :
    collectDigests manifests = Except.ok [] := by
  induction manifests with
  | nil => rfl
  | cons m rest ih =>
    obtain ⟨fields, rfl, hdig⟩ := h m (List.mem_cons_self m rest)
    have hm : manifestDigest (Json.obj fields) = .ok none := by
      simp [manifestDigest, hdig]
    rw [collectDigests, hm]
    exact ih (fun x hx => h x (List.mem_cons_of_mem _ hx))

/-- C5: the digest oracle yields the empty set rather than an error in each of
the claimed cases — the inspect call fails (`CalledProcessError`: nonexistent
tag or any transport/tool failure), the manifest-list JSON has no `manifests`
key, or every manifest entry lacks a `digest` field. -/
theorem published_digests_empty_cases :
    (published_digests (.error ()) = .ok []) ∧
    (∀ fields, jsonLookup "manifests" fields = none →
      published_digests (.ok (.obj fields)) = .ok []) ∧
    (∀ manifests,
      (∀ m ∈ manifests, ∃ fields, m = Json.obj fields ∧ jsonLookup "digest" fields = none) →
      published_digests (.ok (.obj [("manifests", Json.arr manifests)])) = .ok []) := by
  refine ⟨rfl, ?_, ?_⟩
  · intro fields h
    simp [published_digests, h, collectDigests]
  · intro manifests h
    have hl : jsonLookup "manifests" [("manifests", Json.arr manifests)] =
        some (Json.arr manifests) := rfl
    simp only [published_digests, hl, Option.getD_some]
    exact collectDigests_none manifests h

/-- C5 witness: a manifest list whose single entry has no `digest` field. -/
theorem published_digests_empty_cases_witness :
    published_digests
      (.ok (.obj [("manifests",
        Json.arr [Json.obj [("mediaType", Json.str "application/vnd.oci.empty.v1+json")]])])) =
      .ok [] := by
  refine published_digests_empty_cases.2.2 _ ?_
  intro m hm
  simp only [List.mem_singleton] at hm
  subst hm
  exact ⟨_, rfl, rfl⟩

/-! ### Dry-run behaviour and the unguarded digest fetch -/

/-- C6 (code bug): in dry-run mode every driver executes no external command —
but the reconciliation of a variant whose build tag is absent from the
registry still performs the `index_digest` fetch of source line 352, which is
not guarded by `dry_run` and not wrapped in any `try`: with nothing published
the inspect call raises `CalledProcessError` and a dry run aborts right after
the (skipped) build, so the steps downstream of a dry-run build DO depend on
fetching an actual digest for the just-built tag. -/
theorem dry_run_still_fetches_digest :
    (∀ no_cache only_arch, build_cmds true no_cache only_arch = []) ∧
    (∀ repo digest, sign_cmds true repo digest = []) ∧
    (∀ repo existing new, add_tag_cmds true repo existing new = []) ∧
    reconcileImage cfgDry envUnpublished image16min =
      ([Call.build "16.10-spock5.0.4-minimal-1",
        Call.indexDigest "16.10-spock5.0.4-minimal-1"], false) :=
  ⟨fun _ _ => rfl, fun _ _ => rfl, fun _ _ _ => rfl, by decide⟩

/-- C9 (code bug): the `build` driver assembles `bake_args` containing
`--no-cache` and the platform override (source lines 248-252) but then invokes
`bake_cmd("--push")` (line 255), discarding them — with the no-cache flag and
an architecture filter set, the executed command contains neither option. -/
theorem build_discards_bake_args :
    build_cmds false true "arm64" =
      [["docker", "buildx", "bake", "--file", "pgedge.docker-bake.hcl", "--push"]] ∧
    "--no-cache" ∈ build_bake_args true "arm64" ∧
    "--set" ∈ build_bake_args false "arm64" ∧
    "--no-cache" ∉ bake_cmd ["--push"] ∧
    "--set" ∉ bake_cmd ["--push"] := by
  refine ⟨rfl, ?_, ?_, ?_, ?_⟩ <;> decide

/-! ### Reconciler decisions -/

theorem mainRun_singleton_ok (cfg : Config) (env : Env) (image : PgEdgeImage)
    (hf : passes_filter cfg image = true)
    (h : (mainRun cfg env [image]).2 = true) :
    (reconcileImage cfg env image).2 = true := by
  by_cases hr : (reconcileImage cfg env image).2 = true
  · exact hr
  · exfalso
    simp [mainRun, hf, hr] at h

theorem mainRun_singleton (cfg : Config) (env : Env) (image : PgEdgeImage)
    (hf : passes_filter cfg image = true)
    (h2 : (reconcileImage cfg env image).2 = true) :
    mainRun cfg env [image] = ((reconcileImage cfg env image).1, true) := by
  simp [mainRun, hf, h2]

theorem reconcileImage_ok_eq (cfg : Config) (env : Env) (image : PgEdgeImage)
    (h : (reconcileImage cfg env image).2 = true) :
    (decisionA cfg env (Tag.str image.build_tag)).2 = true ∧
    (reconcileExtraTags cfg env (Tag.str image.build_tag)
      (env.digests (Tag.str image.build_tag)) ((image.extra_tags).map Tag.str)).2 = true ∧
    (reconcileImage cfg env image).1 =
      (decisionA cfg env (Tag.str image.build_tag)).1 ++
      (reconcileExtraTags cfg env (Tag.str image.build_tag)
        (env.digests (Tag.str image.build_tag)) ((image.extra_tags).map Tag.str)).1 := by
  by_cases ha : (decisionA cfg env (Tag.str image.build_tag)).2 = true
  · refine ⟨ha, ?_, ?_⟩
    · have := h
      simp only [reconcileImage, ha, if_true] at this
      exact this
    · simp [reconcileImage, ha]
  · exfalso
    simp [reconcileImage, ha] at h

theorem decisionA_ok_cases (cfg : Config) (env : Env) (bt : String)
    (h : (decisionA cfg env bt).2 = true) :
    (env.digests bt = [] ∨ cfg.republish = true →
      ∃ id, env.indexDigest bt = some id ∧
        (decisionA cfg env bt).1 = [Call.build bt, Call.indexDigest bt, Call.sign id]) ∧
    (¬ (env.digests bt = [] ∨ cfg.republish = true) → (decisionA cfg env bt).1 = []) := by
  by_cases hc : env.digests bt = [] ∨ cfg.republish = true
  · rw [decisionA, if_pos hc] at h
    constructor
    · intro _
      by_cases hb : runDriver cfg.dry_run (env.buildOk bt) = true
      · rw [if_pos hb] at h
        cases hid : env.indexDigest bt with
        | none =>
          rw [hid] at h
          simp at h
        | some id =>
          refine ⟨id, rfl, ?_⟩
          rw [decisionA, if_pos hc, if_pos hb, hid]
      · rw [if_neg hb] at h
        simp at h
    · intro hnc
      exact absurd hc hnc
  · constructor
    · intro hcc
      exact absurd hcc hc
    · intro _
      rw [decisionA, if_neg hc]

theorem decisionA_no_addTag (cfg : Config) (env : Env) (bt : String) :
    ∀ c ∈ (decisionA cfg env bt).1, ∀ e n, c ≠ Call.addTag e n := by
  rw [decisionA]
  by_cases h1 : env.digests bt = [] ∨ cfg.republish = true
  · rw [if_pos h1]
    by_cases h2 : runDriver cfg.dry_run (env.buildOk bt) = true
    · rw [if_pos h2]
      cases h3 : env.indexDigest bt with
      | none => simp
      | some id => simp
    · rw [if_neg h2]
      simp
  · rw [if_neg h1]
    simp

theorem reconcileExtraTags_calls (cfg : Config) (env : Env) (bt : String)
    (pub : List String) :
    ∀ ts, ∀ c ∈ (reconcileExtraTags cfg env bt pub ts).1, ∃ e n, c = Call.addTag e n := by
  intro ts
  induction ts with
  | nil => simp [reconcileExtraTags]
  | cons t rest ih =>
    simp only [reconcileExtraTags]
    by_cases h1 : env.digests t = [] ∨ ¬ (∀ x ∈ env.digests t, x ∈ pub) ∨ cfg.republish = true
    · rw [if_pos h1]
      by_cases h2 : runDriver cfg.dry_run (env.addTagOk t) = true
      · rw [if_pos h2]
        intro c hc
        rcases List.mem_cons.mp hc with rfl | hc2
        · exact ⟨bt, t, rfl⟩
        · exact ih c hc2
      · rw [if_neg h2]
        intro c hc
        simp only [List.mem_singleton] at hc
        subst hc
        exact ⟨bt, t, rfl⟩
    · rw [if_neg h1]
      exact ih

theorem reconcileExtraTags_ok (cfg : Config) (env : Env) (bt : String)
    (pub : List String) :
    ∀ ts, (reconcileExtraTags cfg env bt pub ts).2 = true →
      (reconcileExtraTags cfg env bt pub ts).1 =
        (ts.filter (fun t => decide (env.digests t = [] ∨
          ¬ (∀ x ∈ env.digests t, x ∈ pub) ∨ cfg.republish = true))).map
          (fun t => Call.addTag bt t) := by
  intro ts
  induction ts with
  | nil => intro _; rfl
  | cons t rest ih =>
    intro h
    simp only [reconcileExtraTags] at h ⊢
    by_cases h1 : env.digests t = [] ∨ ¬ (∀ x ∈ env.digests t, x ∈ pub) ∨ cfg.republish = true
    · rw [if_pos h1] at h ⊢
      by_cases h2 : runDriver cfg.dry_run (env.addTagOk t) = true
      · rw [if_pos h2] at h ⊢
        rw [List.filter_cons_of_pos (by simpa using h1), List.map_cons]
        have hr : (reconcileExtraTags cfg env bt pub rest).2 = true := by simpa using h
        rw [ih hr]
      · rw [if_neg h2] at h
        simp at h
    · rw [if_neg h1] at h ⊢
      rw [List.filter_cons_of_neg (by simpa using h1)]
      exact ih h

/-- C1: for a variant passing the version filter, on a run that completes,
Decision A invokes the build driver and then (via the `index_digest` fetch)
the sign driver exactly once when the observed published set for the build tag
is empty or the republish flag is set — the trace starts `build, index-digest,
sign` and everything after is alias creation; when the published set is
non-empty and republish is off, no build or sign driver is invoked (every call
in the trace is an alias creation). -/
theorem reconciler_decisionA (cfg : Config) (env : Env) (image : PgEdgeImage)
    (hf : passes_filter cfg image = true)
    (h : (mainRun cfg env [image]).2 = true) :
    (env.digests (Tag.str image.build_tag) = [] ∨ cfg.republish = true →
      ∃ id rest, env.indexDigest (Tag.str image.build_tag) = some id ∧
        (mainRun cfg env [image]).1 =
          Call.build (Tag.str image.build_tag) ::
            Call.indexDigest (Tag.str image.build_tag) :: Call.sign id :: rest ∧
        ∀ c ∈ rest, ∃ e n, c = Call.addTag e n) ∧
    (env.digests (Tag.str image.build_tag) ≠ [] → cfg.republish = false →
      ∀ c ∈ (mainRun cfg env [image]).1, ∃ e n, c = Call.addTag e n) := by
  have hri := mainRun_singleton_ok cfg env image hf h
  have hmain := mainRun_singleton cfg env image hf hri
  have hmain1 : (mainRun cfg env [image]).1 = (reconcileImage cfg env image).1 := by
    rw [hmain]
  obtain ⟨ha, _, heq⟩ := reconcileImage_ok_eq cfg env image hri
  obtain ⟨hpos, hneg⟩ := decisionA_ok_cases cfg env (Tag.str image.build_tag) ha
  constructor
  · intro hc
    obtain ⟨id, hid, haeq⟩ := hpos hc
    refine ⟨id,
      (reconcileExtraTags cfg env (Tag.str image.build_tag)
        (env.digests (Tag.str image.build_tag)) ((image.extra_tags).map Tag.str)).1,
      hid, ?_, ?_⟩
    · rw [hmain1, heq, haeq]
      rfl
    · exact reconcileExtraTags_calls cfg env (Tag.str image.build_tag)
        (env.digests (Tag.str image.build_tag)) ((image.extra_tags).map Tag.str)
  · intro hne hrep c hcm
    have hnc : ¬ (env.digests (Tag.str image.build_tag) = [] ∨ cfg.republish = true) := by
      rintro (hx | hx)
      · exact hne hx
      · rw [hrep] at hx
        exact Bool.false_ne_true hx
    have haeq := hneg hnc
    rw [hmain1, heq, haeq, List.nil_append] at hcm
    exact reconcileExtraTags_calls cfg env (Tag.str image.build_tag)
      (env.digests (Tag.str image.build_tag)) ((image.extra_tags).map Tag.str) c hcm

/-- C1 witness: a fresh registry with default configuration — the single
variant passes the filter, the run completes, and Decision A's branch yields
the build / index-digest / sign head of the trace. -/
theorem reconciler_decisionA_witness :
    ∃ id rest, envFresh.indexDigest (Tag.str image16min.build_tag) = some id ∧
      (mainRun cfgDefault envFresh [image16min]).1 =
        Call.build (Tag.str image16min.build_tag) ::
          Call.indexDigest (Tag.str image16min.build_tag) :: Call.sign id :: rest ∧
      ∀ c ∈ rest, ∃ e n, c = Call.addTag e n :=
  (reconciler_decisionA cfgDefault envFresh image16min rfl (by decide)).1 (Or.inl rfl)

/-- C2: for a variant passing the version filter, on a run that completes,
the alias-creation calls are exactly (and in order) one `add_tag` pointing
each extra tag at the build tag for precisely those extra tags whose observed
digest set is empty, or is not a subset of the `published` set observed for
the build tag, or when republish is set; everything before them in the trace
is not an alias creation. -/
theorem reconciler_decisionB (cfg : Config) (env : Env) (image : PgEdgeImage)
    (hf : passes_filter cfg image = true)
    (h : (mainRun cfg env [image]).2 = true) :
    ∃ pre, (mainRun cfg env [image]).1 =
        pre ++ ((image.extra_tags.map Tag.str).filter
          (fun t => decide (env.digests t = [] ∨
            ¬ (∀ x ∈ env.digests t, x ∈ env.digests (Tag.str image.build_tag)) ∨
            cfg.republish = true))).map
          (fun t => Call.addTag (Tag.str image.build_tag) t) ∧
      ∀ c ∈ pre, ∀ e n, c ≠ Call.addTag e n := by
  have hri := mainRun_singleton_ok cfg env image hf h
  have hmain := mainRun_singleton cfg env image hf hri
  have hmain1 : (mainRun cfg env [image]).1 = (reconcileImage cfg env image).1 := by
    rw [hmain]
  obtain ⟨_, hb, heq⟩ := reconcileImage_ok_eq cfg env image hri
  refine ⟨(decisionA cfg env (Tag.str image.build_tag)).1, ?_, ?_⟩
  · rw [hmain1, heq,
      reconcileExtraTags_ok cfg env (Tag.str image.build_tag)
        (env.digests (Tag.str image.build_tag)) ((image.extra_tags).map Tag.str) hb]
  · exact decisionA_no_addTag cfg env (Tag.str image.build_tag)

/-- C2 witness: on a fresh registry every extra tag of the variant has an
empty observed digest set, so every alias is created. -/
theorem reconciler_decisionB_witness :
    ∃ pre, (mainRun cfgDefault envFresh [image16min]).1 =
        pre ++ ((image16min.extra_tags.map Tag.str).filter
          (fun t => decide (envFresh.digests t = [] ∨
            ¬ (∀ x ∈ envFresh.digests t, x ∈ envFresh.digests (Tag.str image16min.build_tag)) ∨
            cfgDefault.republish = true))).map
          (fun t => Call.addTag (Tag.str image16min.build_tag) t) ∧
      ∀ c ∈ pre, ∀ e n, c ≠ Call.addTag e n :=
  reconciler_decisionB cfgDefault envFresh image16min rfl (by decide)
